import Mathlib

/-!
Verification of the composite-identifier codec in `src/src/pages/IdDecoderTool.tsx`
(the "ID Decoder" tool of the utility-tool repository).

The TypeScript source is shallowly embedded below:
* strings are `List Char` (JS `charCodeAt` becomes `Char.toNat`);
* JS `BigInt` arithmetic (arbitrary-precision, nonnegative throughout the
  decoder) is `Nat`;
* the fallible base-36 parser returns `Option Nat` (JS `null` becomes `none`);
* the UI error paths of `decodeId` (`setError` with one of three messages)
  become an `Except DecodeError` result, and the call `Date.now()` inside
  `decodeId` becomes an explicit argument `now` of the embedded function;
* the timezone-dependent `formatTimestamp` presentation string is not part of
  the numeric codec and is omitted from the record.
-/

namespace IdDecoder

/-- Source constant `BITS3 = 40` (timestamp-delta width in bits). -/
def BITS3 : Nat := 40

/-- Source constant `BITS2 = 14` (sequence width in bits). -/
def BITS2 : Nat := 14

/-- Source constant `BITS1 = 2` (cluster-id width in bits). -/
def BITS1 : Nat := 2

/-- Source constant `BITS0 = 7` (app-id width in bits). -/
def BITS0 : Nat := 7

/-- Source constant `BITS01 = BITS0 + BITS1`. -/
def BITS01 : Nat := BITS0 + BITS1

/-- Source constant `BITS012 = BITS01 + BITS2`. -/
def BITS012 : Nat := BITS01 + BITS2

/-- Source constant `MASK0 = (1 << BITS0) - 1 = 0x7F`. -/
def MASK0 : Nat := 2 ^ BITS0 - 1

/-- Source constant `MASK1 = (1 << BITS1) - 1 = 0x3`. -/
def MASK1 : Nat := 2 ^ BITS1 - 1

/-- Source constant `MASK2 = (1 << BITS2) - 1 = 0x3FFF`. -/
def MASK2 : Nat := 2 ^ BITS2 - 1

/-- Source constant `MASK3 = (1 << BITS3) - 1`. -/
def MASK3 : Nat := 2 ^ BITS3 - 1

/-- Source constant `TIMESTAMP_OFFSET = 1451574000000` (2016-01-01 00:00:00.000). -/
def TIMESTAMP_OFFSET : Nat := 1451574000000

/-- Source constant `maxInt64 = 9223372036854775807n` (2^63 - 1), from `decodeId`. -/
def MAX_INT64 : Nat := 9223372036854775807

/-- The per-character digit computation of `decode36`: JS
`char >= 48 && char <= 57 ? char - 48 : char >= 65 && char <= 90 ? char - 55 :
char >= 97 && char <= 122 ? char - 87 : -1`, on the character code. -/
def digitVal36 (c : Char) : Int :=
  if 48 ≤ c.toNat ∧ c.toNat ≤ 57 then (c.toNat : Int) - 48
  else if 65 ≤ c.toNat ∧ c.toNat ≤ 90 then (c.toNat : Int) - 55
  else if 97 ≤ c.toNat ∧ c.toNat ≤ 122 then (c.toNat : Int) - 87
  else -1

/-- The accumulator loop of `decode36`: starting from `result`, for each
character compute its digit, fail (`null`) on `digit === -1 || digit >= 36`,
else `result = result * 36 + digit`. -/
def decode36Aux : Nat → List Char → Option Nat
  | r, [] => some r
  | r, c :: cs =>
    if digitVal36 c = -1 ∨ 36 ≤ digitVal36 c then none
    else decode36Aux (r * 36 + (digitVal36 c).toNat) cs

/-- Source `decode36(value)`: base-36 parse with `BigInt` accumulation,
returning `null` (here `none`) on an illegal character. -/
def decode36 (cs : List Char) : Option Nat :=
  decode36Aux 0 cs

/-- Source `getAppId(id) = Number(id & MASK0)`. -/
def getAppId (id : Nat) : Nat := id &&& MASK0

/-- Source `getClusterId(id) = Number((id >> BITS0) & MASK1)`. -/
def getClusterId (id : Nat) : Nat := (id >>> BITS0) &&& MASK1

/-- Source `getSequence(id) = Number((id >> BITS01) & MASK2)`. -/
def getSequence (id : Nat) : Nat := (id >>> BITS01) &&& MASK2

/-- Source `getTimestamp(id) = Number(id >> BITS012) + TIMESTAMP_OFFSET`. -/
def getTimestamp (id : Nat) : Nat := (id >>> BITS012) + TIMESTAMP_OFFSET

/-- The spec's packing formula:
`rawValue = (timestampDelta << 23) | (sequence << 9) | (clusterId << 7) | appId`. -/
def packId (appId clusterId sequence delta : Nat) : Nat :=
  (delta <<< 23) ||| (sequence <<< 9) ||| (clusterId <<< 7) ||| appId

/-- JS `/^\d+$/` test on a character: code in `[48, 57]`. -/
def isAsciiDigit (c : Char) : Bool :=
  decide (48 ≤ c.toNat ∧ c.toNat ≤ 57)

/-- JS `/^\d+$/.test(s)`: nonempty and every character an ASCII digit. -/
def matchesAllDigits (cs : List Char) : Bool :=
  decide (cs ≠ []) && cs.all isAsciiDigit

/-- JS `toLowerCase()` on one ASCII character (the decoder feeds `decode36`
only characters it lowercased; non-ASCII characters are left unchanged and
are rejected by `decode36` anyway). -/
def toLowerChar (c : Char) : Char :=
  if 65 ≤ c.toNat ∧ c.toNat ≤ 90 then Char.ofNat (c.toNat + 32) else c

/-- ASCII whitespace as removed by JS `trim()` (space, tab, newline, return). -/
def isJsSpace (c : Char) : Bool :=
  c = ' ' || c = '\t' || c = '\n' || c = '\r'

/-- JS `inputId.trim()`: drop whitespace from both ends. -/
def jsTrim (cs : List Char) : List Char :=
  ((cs.dropWhile isJsSpace).reverse.dropWhile isJsSpace).reverse

/-- JS `BigInt(s)` on a string matching `/^\d+$/`: decimal digit accumulation. -/
def parseDecimal (cs : List Char) : Nat :=
  cs.foldl (fun r c => r * 10 + (c.toNat - 48)) 0

/-- The error taxonomy of `decodeId`, one constructor per `setError` message:
`emptyInput` for "Please enter an ID to decode", `invalidFormat` for
"Invalid ID format...", `outOfRange` for "ID value is out of valid 64-bit
range...". -/
inductive DecodeError where
  | emptyInput
  | invalidFormat
  | outOfRange
deriving DecidableEq, Repr

/-- The `DecodedId` record of the source, minus the presentation-only
`formattedTimestamp` string; `isValid` is the plausibility flag. -/
structure DecodedId where
  originalId : List Char
  decimalValue : Nat
  appId : Nat
  clusterId : Nat
  sequence : Nat
  timestamp : Nat
  isValid : Bool
deriving DecidableEq, Repr

/-- The dispatch of `decodeId`: if the trimmed input matches `/^\d+$/`, parse
it with `BigInt` as decimal, otherwise lowercase it and run `decode36`. -/
def parseInput (t : List Char) : Option Nat :=
  if matchesAllDigits t then some (parseDecimal t)
  else decode36 (t.map toLowerChar)

/-- The parsing-and-range-checking prefix of `decodeId`: empty trimmed input
fails with `emptyInput`; an unparseable input fails with `invalidFormat`; a
parsed value above `MAX_INT64` fails with `outOfRange` (the source also
checks `decimalValue < 0n`, vacuous here since `BigInt` parsing of digit
strings and `decode36` never produce negatives). -/
def parseStage (input : List Char) : Except DecodeError Nat :=
  if (jsTrim input).isEmpty then .error .emptyInput
  else
    match parseInput (jsTrim input) with
    | none => .error .invalidFormat
    | some v =>
      if MAX_INT64 < v then .error .outOfRange else .ok v

/-- The record built by `decodeId` on the success path: the four extracted
fields plus `isValid = timestamp > TIMESTAMP_OFFSET && timestamp <= now + 60000`,
with `now` the clock reading (`Date.now()` in the source, an explicit
argument here). -/
def mkRecord (orig : List Char) (v now : Nat) : DecodedId :=
  { originalId := orig
    decimalValue := v
    appId := getAppId v
    clusterId := getClusterId v
    sequence := getSequence v
    timestamp := getTimestamp v
    isValid := decide (TIMESTAMP_OFFSET < getTimestamp v ∧ getTimestamp v ≤ now + 60000) }

/-- Source `decodeId`, embedded as a function of the input text and the
clock reading `now`. -/
def decodeId (input : List Char) (now : Nat) : Except DecodeError DecodedId :=
  match parseStage input with
  | .error e => .error e
  | .ok v => .ok (mkRecord (jsTrim input) v now)

/-- Upper-case base-36 digit character: `0-9` then `A-Z`. -/
def digitChar36 (d : Nat) : Char :=
  if d < 10 then Char.ofNat (48 + d) else Char.ofNat (55 + d)

/-- Big-endian base-36 digit emission with explicit fuel (fuel `v + 1`
always suffices); models JS `BigInt.prototype.toString(36)` followed by
`toUpperCase()`. -/
def toBase36Aux : Nat → Nat → List Char
  | 0, _ => []
  | fuel + 1, v =>
    if v < 36 then [digitChar36 v]
    else toBase36Aux fuel (v / 36) ++ [digitChar36 (v % 36)]

/-- Source `encodeToBase36(decimal) = decimal.toString(36).toUpperCase()`:
canonical upper-case base-36 digits. -/
def encodeToBase36 (v : Nat) : List Char :=
  toBase36Aux (v + 1) v

/-- Decimal digit character. -/
def digitChar10 (d : Nat) : Char :=
  Char.ofNat (48 + d)

/-- Big-endian decimal digit emission with fuel; models JS
`BigInt.prototype.toString()` (canonical decimal, no separators). -/
def toDecimalAux : Nat → Nat → List Char
  | 0, _ => []
  | fuel + 1, v =>
    if v < 10 then [digitChar10 v]
    else toDecimalAux fuel (v / 10) ++ [digitChar10 (v % 10)]

/-- Source `decimalValue.toString()`: canonical decimal formatting. -/
def formatDecimal (v : Nat) : List Char :=
  toDecimalAux (v + 1) v

end IdDecoder

namespace IdDecoder

/-- A value below `2 ^ n` has no set bit at positions `≥ n`. -/
theorem testBit_false_of_lt_pow {x n i : Nat} (h : x < 2 ^ n) (hni : n ≤ i) :
    x.testBit i = false :=
  Nat.testBit_lt_two_pow (Nat.lt_of_lt_of_le h (Nat.pow_le_pow_right (by norm_num) hni))

/-- Left shift distributes over bitwise or. -/
theorem or_shiftLeft_distrib (x y n : Nat) : (x ||| y) <<< n = (x <<< n) ||| (y <<< n) := by
  apply Nat.eq_of_testBit_eq
  intro i
  simp only [Nat.testBit_shiftLeft, Nat.testBit_or]
  by_cases hi : n ≤ i <;> simp [hi]

/-- Bitwise or of a left-shifted value with a value fitting below the shift
is plain addition. -/
theorem shiftLeft_or_low (x n : Nat) {a : Nat} (h : a < 2 ^ n) :
    (x <<< n) ||| a = 2 ^ n * x + a := by
  apply Nat.eq_of_testBit_eq
  intro i
  rw [Nat.testBit_mul_pow_two_add x h i]
  simp only [Nat.testBit_or, Nat.testBit_shiftLeft]
  by_cases hi : i < n
  · simp [hi, Nat.not_le.mpr hi]
  · have hif : a.testBit i = false := testBit_false_of_lt_pow h (Nat.le_of_not_lt hi)
    simp [hi, Nat.le_of_not_lt hi, hif]

/-- The spec's packing of in-range fields is the weighted digit sum. -/
theorem packId_eq_sum (a c s d : Nat) (ha : a < 2 ^ 7) (hc : c < 2 ^ 2) (hs : s < 2 ^ 14) :
    packId a c s d = 2 ^ 23 * d + 2 ^ 9 * s + 2 ^ 7 * c + a := by
  have hV : (d <<< 14) ||| s = 2 ^ 14 * d + s := shiftLeft_or_low d 14 hs
  have hU : ((((d <<< 14) ||| s) <<< 2) ||| c) = 2 ^ 2 * (2 ^ 14 * d + s) + c := by
    rw [hV]; exact shiftLeft_or_low _ 2 hc
  have hT : (((((d <<< 14) ||| s) <<< 2) ||| c) <<< 7) ||| a =
      2 ^ 7 * (2 ^ 2 * (2 ^ 14 * d + s) + c) + a := by
    rw [hU]; exact shiftLeft_or_low _ 7 ha
  have hshape : packId a c s d = (((((d <<< 14) ||| s) <<< 2) ||| c) <<< 7) ||| a := by
    simp only [packId, or_shiftLeft_distrib, ← Nat.shiftLeft_add]
  rw [hshape, hT]
  ring

/-- C1: for in-range fields, packing with
`(delta << 23) | (sequence << 9) | (clusterId << 7) | appId` and then applying
the decoder's extraction functions (`getAppId`, `getClusterId`, `getSequence`,
`getTimestamp` minus the epoch offset) recovers the four original values; and
for every rawValue in `[0, 2 ^ 63 - 1]`, repacking the extracted fields
reproduces rawValue exactly. -/
theorem field_extraction_inverts_packing
    (a c s d raw : Nat) (ha : a ≤ 127) (hc : c ≤ 3) (hs : s ≤ 16383)
    (hd : d ≤ 2 ^ 40 - 1) (hraw : raw ≤ 2 ^ 63 - 1) :
    getAppId (packId a c s d) = a ∧
    getClusterId (packId a c s d) = c ∧
    getSequence (packId a c s d) = s ∧
    getTimestamp (packId a c s d) - TIMESTAMP_OFFSET = d ∧
    packId (getAppId raw) (getClusterId raw) (getSequence raw)
      (getTimestamp raw - TIMESTAMP_OFFSET) = raw := by
  have hsum := packId_eq_sum a c s d (by omega) (by omega) (by omega)
  have hrepack := packId_eq_sum (raw % 2 ^ 7) (raw / 2 ^ 7 % 2 ^ 2) (raw / 2 ^ 9 % 2 ^ 14)
    (raw / 2 ^ 23) (Nat.mod_lt _ (by norm_num)) (Nat.mod_lt _ (by norm_num))
    (Nat.mod_lt _ (by norm_num))
  refine ⟨?_, ?_, ?_, ?_, ?_⟩
  · simp only [getAppId, MASK0, BITS0, Nat.and_pow_two_sub_one_eq_mod, hsum]
    omega
  · simp only [getClusterId, MASK1, BITS1, BITS0, Nat.shiftRight_eq_div_pow,
      Nat.and_pow_two_sub_one_eq_mod, hsum]
    omega
  · simp only [getSequence, MASK2, BITS2, BITS01, BITS1, BITS0, Nat.shiftRight_eq_div_pow,
      Nat.and_pow_two_sub_one_eq_mod, hsum]
    omega
  · simp only [getTimestamp, BITS012, BITS01, BITS2, BITS1, BITS0, TIMESTAMP_OFFSET,
      Nat.shiftRight_eq_div_pow, hsum]
    omega
  · simp only [getAppId, getClusterId, getSequence, getTimestamp, MASK0, MASK1, MASK2,
      BITS012, BITS01, BITS2, BITS1, BITS0, TIMESTAMP_OFFSET, Nat.shiftRight_eq_div_pow,
      Nat.and_pow_two_sub_one_eq_mod, Nat.add_sub_cancel]
    rw [hrepack]
    omega

/-- Witness for C1 at `appId = 5`, `clusterId = 2`, `sequence = 100`,
`delta = 123456789`, `rawValue = 1035630607911173`. -/
theorem field_extraction_inverts_packing_witness :
    (5 ≤ 127 ∧ 2 ≤ 3 ∧ 100 ≤ 16383 ∧ 123456789 ≤ 2 ^ 40 - 1 ∧
      1035630607911173 ≤ 2 ^ 63 - 1) ∧
    (getAppId (packId 5 2 100 123456789) = 5 ∧
     getClusterId (packId 5 2 100 123456789) = 2 ∧
     getSequence (packId 5 2 100 123456789) = 100 ∧
     getTimestamp (packId 5 2 100 123456789) - TIMESTAMP_OFFSET = 123456789 ∧
     packId (getAppId 1035630607911173) (getClusterId 1035630607911173)
       (getSequence 1035630607911173)
       (getTimestamp 1035630607911173 - TIMESTAMP_OFFSET) = 1035630607911173) :=
  ⟨by decide,
   field_extraction_inverts_packing 5 2 100 123456789 1035630607911173
     (by decide) (by decide) (by decide) (by decide) (by decide)⟩

/-- C5: the raw value 1035630607911173, which equals
`(123456789 << 23) | (100 << 9) | (2 << 7) | 5`, decodes to `appId = 5`,
`clusterId = 2`, `sequence = 100`, and
`timestampMillis = 123456789 + 1451574000000 = 1451697456789`. -/
theorem decode_example_1035630607911173 :
    packId 5 2 100 123456789 = 1035630607911173 ∧
    getAppId 1035630607911173 = 5 ∧
    getClusterId 1035630607911173 = 2 ∧
    getSequence 1035630607911173 = 100 ∧
    getTimestamp 1035630607911173 = 1451697456789 ∧
    1451697456789 = 123456789 + TIMESTAMP_OFFSET := by
  refine ⟨by decide, by decide, by decide, by decide, by decide, by decide⟩

/-- C10: `decode36` applied to the empty string succeeds with value 0 rather
than failing; the entry point alone rejects empty input (with `emptyInput`)
before `decode36` could see it. -/
theorem decode36_empty_returns_zero :
    decode36 [] = some 0 ∧ parseStage [] = .error .emptyInput := by
  exact ⟨rfl, rfl⟩

/-- Every character emitted by `digitChar36` is accepted back by `digitVal36`
with the original digit value. -/
theorem digitVal36_digitChar36 :
    ∀ d, d < 36 →
      ¬(digitVal36 (digitChar36 d) = -1 ∨ 36 ≤ digitVal36 (digitChar36 d)) ∧
        (digitVal36 (digitChar36 d)).toNat = d := by
  decide

/-- Every character emitted by `digitChar10` maps back to its digit under the
decimal accumulation step of `BigInt` parsing. -/
theorem digitChar10_toNat :
    ∀ d, d < 10 → (digitChar10 d).toNat - 48 = d := by
  decide

/-- The `decode36` accumulator processes an appended suffix from the
accumulated value of the prefix. -/
theorem decode36Aux_append (xs ys : List Char) :
    ∀ r, decode36Aux r (xs ++ ys) =
      (decode36Aux r xs).bind fun r2 => decode36Aux r2 ys := by
  induction xs with
  | nil => intro r; rfl
  | cons c cs ih =>
    intro r
    by_cases h : digitVal36 c = -1 ∨ 36 ≤ digitVal36 c
    · simp [decode36Aux, h]
    · simp [decode36Aux, h, ih]

/-- Parsing the base-36 digits of `v` from accumulator `r` yields
`r * 36 ^ digits + v`. -/
theorem decode36Aux_toBase36Aux (fuel : Nat) :
    ∀ v r, v < fuel →
      decode36Aux r (toBase36Aux fuel v) =
        some (r * 36 ^ (toBase36Aux fuel v).length + v) := by
  induction fuel with
  | zero => intro v r h; exact absurd h (Nat.not_lt_zero v)
  | succ fuel ih =>
    intro v r hv
    by_cases h36 : v < 36
    · have hd := digitVal36_digitChar36 v h36
      simp only [toBase36Aux, if_pos h36]
      simp [decode36Aux, hd.1, hd.2]
    · have hdiv : v / 36 < fuel := by omega
      have hd := digitVal36_digitChar36 (v % 36) (Nat.mod_lt _ (by norm_num))
      simp only [toBase36Aux, if_neg h36]
      rw [decode36Aux_append, ih (v / 36) r hdiv, Option.some_bind]
      simp only [decode36Aux, if_neg hd.1, hd.2, List.length_append, List.length_cons,
        List.length_nil]
      have key : (r * 36 ^ (toBase36Aux fuel (v / 36)).length + v / 36) * 36 + v % 36 =
          r * 36 ^ ((toBase36Aux fuel (v / 36)).length + (0 + 1)) + v := by
        have hmod : v / 36 * 36 + v % 36 = v := by omega
        rw [pow_succ]
        calc (r * 36 ^ (toBase36Aux fuel (v / 36)).length + v / 36) * 36 + v % 36
            = r * (36 ^ (toBase36Aux fuel (v / 36)).length * 36) +
                (v / 36 * 36 + v % 36) := by ring
          _ = r * (36 ^ (toBase36Aux fuel (v / 36)).length * 36) + v := by rw [hmod]
      rw [key]

/-- Folding the decimal accumulation step over the decimal digits of `v`
starting from `r` yields `r * 10 ^ digits + v`. -/
theorem foldl10_toDecimalAux (fuel : Nat) :
    ∀ v r, v < fuel →
      List.foldl (fun r2 c => r2 * 10 + (c.toNat - 48)) r (toDecimalAux fuel v) =
        r * 10 ^ (toDecimalAux fuel v).length + v := by
  induction fuel with
  | zero => intro v r h; exact absurd h (Nat.not_lt_zero v)
  | succ fuel ih =>
    intro v r hv
    by_cases h10 : v < 10
    · have hd := digitChar10_toNat v h10
      simp only [toDecimalAux, if_pos h10]
      simp [hd]
    · have hdiv : v / 10 < fuel := by omega
      have hd := digitChar10_toNat (v % 10) (Nat.mod_lt _ (by norm_num))
      simp only [toDecimalAux, if_neg h10]
      rw [List.foldl_append, ih (v / 10) r hdiv]
      simp only [List.foldl_cons, List.foldl_nil, hd, List.length_append, List.length_cons,
        List.length_nil]
      have hmod : v / 10 * 10 + v % 10 = v := by omega
      rw [pow_succ]
      calc (r * 10 ^ (toDecimalAux fuel (v / 10)).length + v / 10) * 10 + v % 10
          = r * (10 ^ (toDecimalAux fuel (v / 10)).length * 10) +
              (v / 10 * 10 + v % 10) := by ring
        _ = r * (10 ^ (toDecimalAux fuel (v / 10)).length * 10) + v := by rw [hmod]

/-- C2: for every `v` in `[0, 2 ^ 64 - 1]`, parsing the canonical upper-case
base-36 formatting of `v` with `decode36` returns `v`, and parsing the
canonical decimal formatting of `v` returns `v`. -/
theorem parse_format_roundtrip (v : Nat) (hv : v ≤ 2 ^ 64 - 1) :
    decode36 (encodeToBase36 v) = some v ∧ parseDecimal (formatDecimal v) = v := by
  constructor
  · have h := decode36Aux_toBase36Aux (v + 1) v 0 (Nat.lt_succ_self v)
    simpa [decode36, encodeToBase36] using h
  · have h := foldl10_toDecimalAux (v + 1) v 0 (Nat.lt_succ_self v)
    simpa [parseDecimal, formatDecimal] using h

/-- Witness for C2 at `v = 1234567890`. -/
theorem parse_format_roundtrip_witness :
    1234567890 ≤ 2 ^ 64 - 1 ∧
      (decode36 (encodeToBase36 1234567890) = some 1234567890 ∧
       parseDecimal (formatDecimal 1234567890) = 1234567890) :=
  ⟨by decide, parse_format_roundtrip 1234567890 (by decide)⟩

/-- C3: whenever the parse-and-range stage succeeds with value `v`, `decodeId`
returns the complete decoded record, whose plausibility flag equals
`timestamp > TIMESTAMP_OFFSET && timestamp <= now + 60000` (an implausible
timestamp only clears the flag, the record is still produced); a timestamp
two hours ahead of `now` yields a false flag, and one 30 seconds ahead of a
post-epoch `now` yields a true flag. -/
theorem plausibility_flag_spec (input : List Char) (now v : Nat)
    (h : parseStage input = .ok v) :
    decodeId input now = .ok (mkRecord (jsTrim input) v now) ∧
    (mkRecord (jsTrim input) v now).isValid =
      decide (TIMESTAMP_OFFSET < getTimestamp v ∧ getTimestamp v ≤ now + 60000) ∧
    (getTimestamp v = now + 7200000 → (mkRecord (jsTrim input) v now).isValid = false) ∧
    (TIMESTAMP_OFFSET ≤ now → getTimestamp v = now + 30000 →
      (mkRecord (jsTrim input) v now).isValid = true) := by
  refine ⟨by simp [decodeId, h], by simp [mkRecord], ?_, ?_⟩
  · intro ht
    simp only [mkRecord, ht, TIMESTAMP_OFFSET, decide_eq_false_iff_not]
    omega
  · intro hnow ht
    simp only [mkRecord, ht, TIMESTAMP_OFFSET, decide_eq_true_eq]
    simp only [TIMESTAMP_OFFSET] at hnow
    omega

/-- Witness for C3 at the decimal input `1035630607911173` with reference
time 1451697500000. -/
theorem plausibility_flag_spec_witness :
    parseStage (String.toList "1035630607911173") = .ok 1035630607911173 ∧
    decodeId (String.toList "1035630607911173") 1451697500000 =
      .ok (mkRecord (jsTrim (String.toList "1035630607911173"))
        1035630607911173 1451697500000) :=
  ⟨rfl,
   (plausibility_flag_spec (String.toList "1035630607911173") 1451697500000
     1035630607911173 rfl).1⟩

/-- C6: any parsed value above `MAX_INT64 = 2 ^ 63 - 1` makes `decodeId` fail
with `outOfRange` and produce no record; in particular the decimal input
`"9223372036854775808"` (2^63) fails with `outOfRange`. -/
theorem out_of_range_rejected (input : List Char) (now v : Nat)
    (hne : (jsTrim input).isEmpty = false)
    (hp : parseInput (jsTrim input) = some v)
    (hv : MAX_INT64 < v) :
    decodeId input now = .error .outOfRange ∧
    decodeId (String.toList "9223372036854775808") now = .error .outOfRange := by
  constructor
  · simp [decodeId, parseStage, hne, hp, hv]
  · rfl

/-- Witness for C6 at the decimal input `"9223372036854775808"`. -/
theorem out_of_range_rejected_witness :
    ((jsTrim (String.toList "9223372036854775808")).isEmpty = false ∧
     parseInput (jsTrim (String.toList "9223372036854775808")) =
       some 9223372036854775808 ∧
     MAX_INT64 < 9223372036854775808) ∧
    decodeId (String.toList "9223372036854775808") 0 = .error .outOfRange :=
  ⟨⟨by decide, by decide, by decide⟩,
   (out_of_range_rejected (String.toList "9223372036854775808") 0
     9223372036854775808 (by decide) (by decide) (by decide)).1⟩

/-- C7: a trimmed input matching `/^\d+$/` is parsed as decimal (never as
base-36), any other nonempty trimmed input goes to the base-36 parser; the
input `"123456"` parses to the decimal value 123456, while its base-36
reading would have been 63970746. -/
theorem decimal_dispatch (input : List Char) :
    (matchesAllDigits (jsTrim input) = true →
      parseStage input =
        if MAX_INT64 < parseDecimal (jsTrim input) then .error .outOfRange
        else .ok (parseDecimal (jsTrim input))) ∧
    ((jsTrim input).isEmpty = false → matchesAllDigits (jsTrim input) = false →
      parseStage input =
        match decode36 ((jsTrim input).map toLowerChar) with
        | none => .error .invalidFormat
        | some v => if MAX_INT64 < v then .error .outOfRange else .ok v) ∧
    parseStage (String.toList "123456") = .ok 123456 ∧
    decode36 (String.toList "123456") = some 63970746 ∧
    (63970746 : Nat) ≠ 123456 := by
  refine ⟨?_, ?_, rfl, by decide, by decide⟩
  · intro hall
    have hne : (jsTrim input).isEmpty = false := by
      cases hj : jsTrim input with
      | nil => rw [hj] at hall; simp [matchesAllDigits] at hall
      | cons c cs => simp [List.isEmpty]
    simp [parseStage, parseInput, hall, hne]
  · intro hne hnot
    simp [parseStage, parseInput, hne, hnot]

/-- Witness for C7 at the all-digit input `"123456"`. -/
theorem decimal_dispatch_witness :
    parseStage (String.toList "123456") =
      if MAX_INT64 < parseDecimal (jsTrim (String.toList "123456")) then .error .outOfRange
      else .ok (parseDecimal (jsTrim (String.toList "123456"))) :=
  (decimal_dispatch (String.toList "123456")).1 (by decide)

/-- C9: an input that is empty, or all whitespace, after trimming is rejected
with `emptyInput`; no parse is attempted (the error is produced by the
leading emptiness test of `decodeId`). -/
theorem empty_input_rejected (input : List Char) (now : Nat)
    (h : jsTrim input = []) :
    decodeId input now = .error .emptyInput ∧
    decodeId [] now = .error .emptyInput ∧
    decodeId (String.toList "   ") now = .error .emptyInput := by
  refine ⟨by simp [decodeId, parseStage, h], rfl, rfl⟩

/-- Witness for C9 at the all-whitespace input `"   "`. -/
theorem empty_input_rejected_witness :
    jsTrim (String.toList "   ") = [] ∧
    decodeId (String.toList "   ") 0 = .error .emptyInput :=
  ⟨by decide, (empty_input_rejected (String.toList "   ") 0 (by decide)).1⟩

/-- C4 counterexample: `decode36` never fails on 64-bit overflow; on the
13-character input `"ZZZZZZZZZZZZZ"` it succeeds and returns
`36 ^ 13 - 1 = 170581728179578208255`, which exceeds `2 ^ 64 - 1`. -/
theorem decode36_overflow_counterexample :
    decode36 (String.toList "ZZZZZZZZZZZZZ") = some 170581728179578208255 ∧
    2 ^ 64 - 1 < 170581728179578208255 :=
  ⟨by decide, by decide⟩

/-- C4 (amended): `decode36` accumulates `result = result * 36 + digit` left
to right with arbitrary-precision arithmetic and never fails on overflow;
any base-36 value above `MAX_INT64 = 2 ^ 63 - 1` (so in particular any value
beyond the 64-bit range) is rejected with `outOfRange` by the subsequent
range check of `decodeId`, not by the parser itself. -/
theorem decode36_accumulation_and_range (cs : List Char) (c : Char) (r : Nat)
    (input : List Char) (v now : Nat) :
    (decode36 cs = some r → ¬(digitVal36 c = -1 ∨ 36 ≤ digitVal36 c) →
      decode36 (cs ++ [c]) = some (r * 36 + (digitVal36 c).toNat)) ∧
    ((jsTrim input).isEmpty = false → matchesAllDigits (jsTrim input) = false →
      decode36 ((jsTrim input).map toLowerChar) = some v → MAX_INT64 < v →
      decodeId input now = .error .outOfRange) := by
  constructor
  · intro h1 h2
    have h1' : decode36Aux 0 cs = some r := h1
    show decode36Aux 0 (cs ++ [c]) = _
    rw [decode36Aux_append, h1', Option.some_bind]
    simp [decode36Aux, h2]
  · intro hne hnot hp hv
    simp [decodeId, parseStage, parseInput, hne, hnot, hp, hv]

/-- Witness for C4 (amended): one accumulation step on `"ZZ" ++ "Z"`, and the
overflowing input `"ZZZZZZZZZZZZZ"` rejected as `outOfRange` by `decodeId`. -/
theorem decode36_accumulation_and_range_witness :
    decode36 (String.toList "ZZ" ++ [ 'Z' ]) = some (1295 * 36 + 35) ∧
    decodeId (String.toList "ZZZZZZZZZZZZZ") 0 = .error .outOfRange :=
  ⟨by
    have h := (decode36_accumulation_and_range (String.toList "ZZ") 'Z' 1295
      [] 0 0).1 (by decide) (by decide)
    simpa using h,
   (decode36_accumulation_and_range [] 'A' 0 (String.toList "ZZZZZZZZZZZZZ")
     170581728179578208255 0).2 (by decide) (by decide) (by decide) (by decide)⟩

end IdDecoder
